import Mathlib

/-!
Verification of the symptom-driven diagnosis engine of the medical-chatbot
repository (`predictor.py` and the symptom-check flow of `medbot.py`), as a
shallow embedding in Lean 4.

Python strings are modelled as Lean `String`s (lists of characters); machine
floats appearing in `predictor.py` (probabilities, confidences, severity
indices) are modelled as exact rationals `ℚ`; the fitted classifier, the
training data frame and the auxiliary CSV dictionaries are external artifacts
loaded at import time, so they are fields of an explicit `Engine` record and
the functions of `predictor.py` take the engine as a parameter.
-/

attribute [local semireducible] Rat.mul Rat.inv Rat.add Rat.sub

/- ---------------------------------------------------------------------------
Python string primitives used by `predictor.py`.
--------------------------------------------------------------------------- -/

/-- Characters removed by Python's `str.strip()` with no argument. -/
def isPyWhitespace (c : Char) : Bool :=
  c = ' ' || c = '\t' || c = '\n' || c = '\r' || c = '\x0b' || c = '\x0c'

/-- Python `str.strip()`: drop leading and trailing whitespace. -/
def pyStrip (l : List Char) : List Char :=
  ((l.dropWhile isPyWhitespace).reverse.dropWhile isPyWhitespace).reverse

/-- Python `str.strip()` at the `String` level. -/
def pyStripStr (s : String) : String := ⟨pyStrip s.data⟩

/-- One character of Python `str.replace(" ", "_")`: each space character
becomes an underscore; every other character is unchanged. -/
def replaceSpace (c : Char) : Char := if c = ' ' then '_' else c

/-- One character of Python `str.lower()`, restricted to the ASCII range that
the symptom catalog uses: the 26 upper-case ASCII letters map to their
lower-case forms, every other character is unchanged. -/
def pyLower (c : Char) : Char :=
  match c with
  | 'A' => 'a' | 'B' => 'b' | 'C' => 'c' | 'D' => 'd' | 'E' => 'e'
  | 'F' => 'f' | 'G' => 'g' | 'H' => 'h' | 'I' => 'i' | 'J' => 'j'
  | 'K' => 'k' | 'L' => 'l' | 'M' => 'm' | 'N' => 'n' | 'O' => 'o'
  | 'P' => 'p' | 'Q' => 'q' | 'R' => 'r' | 'S' => 's' | 'T' => 't'
  | 'U' => 'u' | 'V' => 'v' | 'W' => 'w' | 'X' => 'x' | 'Y' => 'y'
  | 'Z' => 'z'
  | c => c

/-- `normalize_symptom` from predictor.py:
`return s.strip().replace(" ", "_").lower()` — strip outer whitespace, then
turn each space into an underscore, then lower-case. -/
def normalize_symptom (s : String) : String :=
  ⟨((pyStrip s.data).map replaceSpace).map pyLower⟩

/-- Membership in the character class `[a-z_]` named by the specification. -/
def isCatalogChar (c : Char) : Bool := ('a' ≤ c && c ≤ 'z') || c = '_'

/-- Python `s.replace("_", "")`, used by the fuzzy fallback of
`predict_disease`. -/
def stripUnderscores (s : String) : String := ⟨s.data.filter (fun c => c ≠ '_')⟩

/- ---------------------------------------------------------------------------
Python `round(x, 2)` on exact values: round half to even at two decimals.
--------------------------------------------------------------------------- -/

/-- Round a rational to the nearest integer, ties to even, which is the
rounding mode of Python's builtin `round`. -/
def roundHalfEven (q : ℚ) : ℤ :=
  let f := ⌊q⌋
  let r := q - f
  if r < 1/2 then f
  else if 1/2 < r then f + 1
  else if 2 ∣ f then f else f + 1

/-- Python `round(x, 2)` from `sec_predict`, on exact rationals. -/
def round2 (q : ℚ) : ℚ := ((roundHalfEven (q * 100) : ℤ) : ℚ) / 100

/- ---------------------------------------------------------------------------
The engine: the artifacts predictor.py loads at import time.
--------------------------------------------------------------------------- -/

/-- The fixed artifacts `predictor.py` initializes at import time: the ordered
symptom catalog `cols` (feature schema), the fitted classifier `clf` read
through its `predict_proba` method (the branch taken for the
`DecisionTreeClassifier` the loader produces), the label encoder's class list
`le.classes_`, the three auxiliary CSV dictionaries, and the training data
frame used by `dynamic_followups` (`none` models `training_df is None`; each
row is its feature values, aligned with the catalog, plus its prognosis
label).  Severity weights are natural numbers, following the data model of the
specification (a non-negative integer weight per symptom). -/
structure Engine where
  catalog : List String
  clf : List ℕ → List ℚ
  classes : List String
  sevDict : String → Option ℕ
  descs : String → Option String
  precs : String → Option (List String)
  trainRows : Option (List (List ℚ × String))

/-- `CONFIDENCE_THRESHOLD = 70.0` from predictor.py. -/
def CONFIDENCE_THRESHOLD : ℚ := 70

/-- `TOP_K = 3` from predictor.py. -/
def TOP_K : ℕ := 3

/-- `FOLLOWUP_COUNT = 3` from predictor.py. -/
def FOLLOWUP_COUNT : ℕ := 3

/-- Index lookup in `symptoms_dict = {symptom: idx for idx, symptom in
enumerate(cols)}`: the index of the symptom in the catalog (for a duplicated
column the later index wins, as in the dict comprehension), `none` when the
symptom is not a catalog member. -/
def dictIdxAux (s : String) : List String → ℕ → Option ℕ
  | [], _ => none
  | k :: ks, i =>
    match dictIdxAux s ks (i + 1) with
    | some j => some j
    | none => if k = s then some i else none

/-- Lookup in `symptoms_dict`; `(dictIdx cat s).isSome` models
`s in symptoms_dict`. -/
def dictIdx (catalog : List String) (s : String) : Option ℕ := dictIdxAux s catalog 0

/-- The binary presence vector built at the start of `sec_predict`:
`np.zeros(len(symptoms_dict))`, then `input_vector[symptoms_dict[key]] = 1`
for each input symptom whose normalized form is a catalog member. -/
def inputVector (E : Engine) (symptoms : List String) : List ℕ :=
  symptoms.foldl
    (fun vec s =>
      match dictIdx E.catalog (normalize_symptom s) with
      | some i => vec.set i 1
      | none => vec)
    (List.replicate E.catalog.length 0)

/- ---------------------------------------------------------------------------
Stable sorting used to model `np.argsort` and Python's `list.sort`.
--------------------------------------------------------------------------- -/

/-- Insert keeping ascending key order, new element after equal keys. -/
def insertAscBy (key : α → ℚ) (x : α) : List α → List α
  | [] => [x]
  | y :: ys => if key y ≤ key x then y :: insertAscBy key x ys else x :: y :: ys

/-- Stable ascending sort by a rational key (insertion sort). -/
def sortByKeyAsc (key : α → ℚ) (l : List α) : List α :=
  l.foldl (fun acc x => insertAscBy key x acc) []

/-- Insert keeping descending key order, new element after equal keys. -/
def insertDescBy (key : α → ℚ) (x : α) : List α → List α
  | [] => [x]
  | y :: ys => if key x ≤ key y then y :: insertDescBy key x ys else x :: y :: ys

/-- Stable descending sort by a rational key, modelling Python's stable
`list.sort(key=..., reverse=True)` in `dynamic_followups`. -/
def sortByKeyDesc (key : α → ℚ) (l : List α) : List α :=
  l.foldl (fun acc x => insertDescBy key x acc) []

/-- `probs.argsort()` from `sec_predict`: the indices of `l` ordered by
ascending value.  NumPy's default sort is deterministic but unspecified on
ties; the embedding fixes a stable order (none of the verified properties
depends on the tie order). -/
def argsort (l : List ℚ) : List ℕ :=
  (sortByKeyAsc Prod.snd l.enum).map Prod.fst

/- ---------------------------------------------------------------------------
sec_predict
--------------------------------------------------------------------------- -/

/-- `sec_predict` from predictor.py: build the presence vector, take the class
probabilities, keep the `TOP_K` highest (`probs.argsort()[-TOP_K:][::-1]`),
and report each as `(le.inverse_transform([i])[0], round(probs[i]*100, 2))`.
Out-of-range indices cannot arise from `argsort`; the embedding uses total
lookups with defaults in place of Python's partial indexing. -/
def sec_predict (E : Engine) (symptoms : List String) : List (String × ℚ) :=
  let probs := E.clf (inputVector E symptoms)
  let top_indices := (argsort probs).reverse.take TOP_K
  top_indices.map (fun i => (E.classes.getD i "", round2 (100 * probs.getD i 0)))

/- ---------------------------------------------------------------------------
calc_severity
--------------------------------------------------------------------------- -/

/-- The `score` of `calc_severity`: the sum of
`severityDictionary.get(normalize_symptom(symptom), 0)` over the input. -/
def severityScore (E : Engine) (symptoms : List String) : ℕ :=
  (symptoms.map (fun s => (E.sevDict (normalize_symptom s)).getD 0)).sum

/-- The `severity_score` of `calc_severity`:
`(score * max(1, days)) / (len(symptoms) + 1)`, an exact rational. -/
def severityIndex (E : Engine) (symptoms : List String) (days : ℤ) : ℚ :=
  ((severityScore E symptoms : ℚ) * ((max 1 days : ℤ) : ℚ)) / ((symptoms.length : ℚ) + 1)

/-- The band mapping at the end of `calc_severity`: the chain of `if`
thresholds at 5, 10 and 15. -/
def bandOf (q : ℚ) : String :=
  if q < 5 then "low"
  else if q < 10 then "moderate"
  else if q < 15 then "high"
  else "critical"

/-- `calc_severity` from predictor.py. -/
def calc_severity (E : Engine) (symptoms : List String) (days : ℤ) : String :=
  bandOf (severityIndex E symptoms days)

/-- Ordering of the four severity bands, low < moderate < high < critical. -/
def sevRank (band : String) : ℕ :=
  if band = "low" then 0
  else if band = "moderate" then 1
  else if band = "high" then 2
  else 3

/- ---------------------------------------------------------------------------
dynamic_followups
--------------------------------------------------------------------------- -/

/-- Componentwise `np.abs(a - b)` on prevalence vectors. -/
def absDiffs (a b : List ℚ) : List ℚ := List.zipWith (fun x y => |x - y|) a b

/-- Per-disease symptom prevalence in `dynamic_followups`: the columnwise mean
of the training rows labeled with the disease, or a zero vector when no row
has that label. -/
def prevalenceOf (m : ℕ) (rows : List (List ℚ × String)) (disease : String) : List ℚ :=
  let subset := rows.filter (fun r => r.snd = disease)
  if subset.isEmpty then List.replicate m 0
  else (List.range m).map (fun j => (subset.map (fun r => r.fst.getD j 0)).sum / (subset.length : ℚ))

/-- `dynamic_followups` from predictor.py: with no training data, return the
static list `["nausea", "vomiting", "blurred_vision"]`; otherwise score each
catalog symptom by the summed absolute prevalence difference between the top
candidate and every other candidate, sort descending (stably), keep up to
`FOLLOWUP_COUNT` whose normalized name is not already matched and whose score
is positive, and if that leaves nothing fall back to
`["nausea", "vomiting", "fatigue"]` minus the matched symptoms.
`candidates.headD ""` models `candidates[0]` (never reached with an empty
candidate list in the caller). -/
def dynamic_followups (E : Engine) (matched_symptoms : List String)
    (top_candidates : List (String × ℚ)) : List String :=
  let candidates := top_candidates.map Prod.fst
  match E.trainRows with
  | none => (["nausea", "vomiting", "blurred_vision"]).take FOLLOWUP_COUNT
  | some rows =>
    if rows.isEmpty then (["nausea", "vomiting", "blurred_vision"]).take FOLLOWUP_COUNT
    else
      let m := E.catalog.length
      let top1 := candidates.headD ""
      let diffs := candidates.tail.foldl
        (fun acc d => List.zipWith (· + ·) acc (absDiffs (prevalenceOf m rows top1) (prevalenceOf m rows d)))
        (List.replicate m (0 : ℚ))
      let symptom_scores := sortByKeyDesc Prod.snd (E.catalog.zip diffs)
      let matchedNorm := matched_symptoms.map normalize_symptom
      let followups :=
        ((symptom_scores.filter
            (fun p => !(matchedNorm.contains (normalize_symptom p.fst)) && decide ((0 : ℚ) < p.snd))).map
          (fun p => normalize_symptom p.fst)).take FOLLOWUP_COUNT
      if followups.isEmpty then
        (["nausea", "vomiting", "fatigue"].filter (fun s => !(matchedNorm.contains s))).take FOLLOWUP_COUNT
      else followups

/- ---------------------------------------------------------------------------
predict_disease
--------------------------------------------------------------------------- -/

/-- The three shapes of dictionary `predict_disease` can return: an error, a
follow-up request, or the full final record. -/
inductive PredictResult where
  | error (msg : String)
  | followUp (follow_up : List String) (predictions : List (String × ℚ))
  | final (disease : String) (confidence : ℚ) (description : String)
      (precautions : List String) (severity : String)
      (matched_symptoms : List String) (predictions : List (String × ℚ))
deriving DecidableEq

/-- Whether the result is the full final record. -/
def PredictResult.isFinal : PredictResult → Bool
  | .final .. => true
  | _ => false

/-- Whether the result is a follow-up request. -/
def PredictResult.isFollowUp : PredictResult → Bool
  | .followUp .. => true
  | _ => false

/-- Whether the result is an error. -/
def PredictResult.isError : PredictResult → Bool
  | .error _ => true
  | _ => false

/-- Every string carried by a `PredictResult`, used to state that an output
nowhere mentions a dropped token. -/
def resultStrings : PredictResult → List String
  | .error msg => [msg]
  | .followUp fs ps => fs ++ ps.map Prod.fst
  | .final d _ desc prec sev m ps => [d, desc, sev] ++ prec ++ m ++ ps.map Prod.fst

/-- `normalized` in `predict_disease`:
`[normalize_symptom(s) for s in symptoms if s and str(s).strip()]`. -/
def normalizedOf (symptoms : List String) : List String :=
  (symptoms.filter (fun s => !(s = "") && !(pyStripStr s = ""))).map normalize_symptom

/-- `matched` before the fallback: the normalized tokens that are exact
catalog members (`s in symptoms_dict`). -/
def matchedDirect (E : Engine) (symptoms : List String) : List String :=
  (normalizedOf symptoms).filter (fun s => (dictIdx E.catalog s).isSome)

/-- The underscore-insensitive fallback of `predict_disease`: for each
normalized token, the first catalog key equal to it after removing all
underscores from both.  Python iterates `set(symptoms_dict.keys())`, whose
order is unspecified; the embedding iterates in catalog order. -/
def fallbackMatched (E : Engine) (symptoms : List String) : List String :=
  (normalizedOf symptoms).filterMap
    (fun s => E.catalog.find? (fun k => stripUnderscores k = stripUnderscores s))

/-- The final `matched` list of `predict_disease`: the direct matches, or the
underscore-insensitive fallback when there is no direct match. -/
def matchedOf (E : Engine) (symptoms : List String) : List String :=
  let m := matchedDirect E symptoms
  if m.isEmpty then fallbackMatched E symptoms else m

/-- `predict_disease` from predictor.py.  The `isinstance` guard is subsumed
by typing; `predictions[0]` is modelled with a defaulted head (the caller's
engine always yields a nonempty prediction list). -/
def predict_disease (E : Engine) (symptoms : List String) (days : ℤ) : PredictResult :=
  if symptoms.length = 0 then .error "No symptoms provided."
  else
    let matched := matchedOf E symptoms
    if matched.isEmpty then .error "No valid symptoms found in our symptom list."
    else
      let predictions := sec_predict E matched
      let top := predictions.headD ("", 0)
      if top.snd < CONFIDENCE_THRESHOLD then
        .followUp (dynamic_followups E matched predictions) predictions
      else
        .final top.fst top.snd ((E.descs top.fst).getD "No description available.")
          ((E.precs top.fst).getD ["No precautions found."])
          (calc_severity E matched days) matched predictions

/-- The top reported confidence for an input, as `predict_disease` reads it
(`predictions[0]` of `sec_predict` on the matched list). -/
def topConf (E : Engine) (symptoms : List String) : ℚ :=
  ((sec_predict E (matchedOf E symptoms)).headD ("", 0)).snd

/- ---------------------------------------------------------------------------
The symptom-check turn of medbot.py (finish_symptom_check).
--------------------------------------------------------------------------- -/

/-- The per-session state of `medbot.py`'s `UserSession` that the symptom
check reads and writes: `state` (the phase), `selected_symptoms` and
`current_page`. -/
structure BotSession where
  state : String
  selected_symptoms : List String
  current_page : ℕ
deriving DecidableEq

/-- What a finish turn sends back, with the transport-layer message formatting
elided: the no-symptoms warning, a predictor error, or the result reply. -/
inductive TurnOutput where
  | noSymptomsWarning
  | errorReply (msg : String)
  | resultReply (result : PredictResult)
deriving DecidableEq

/-- `finish_symptom_check` from medbot.py, on an existing session.  With no
selected symptoms it warns and sets the state to `"idle"`; on a predictor
error it resets state, symptoms and page; on a follow-up result the reply
construction reads `result['disease']`, a key the follow-up dictionary lacks,
so the turn dies with an uncaught `KeyError`, modelled as `none`; on a final
result it replies and resets (the `"followup" in result` check never fires
because the predictor uses the key `follow_up`). -/
def finish_symptom_check (E : Engine) (sess : BotSession) : Option (BotSession × TurnOutput) :=
  if sess.selected_symptoms.isEmpty then
    some ({ sess with state := "idle" }, .noSymptomsWarning)
  else
    match predict_disease E sess.selected_symptoms 2 with
    | .error msg => some (⟨"idle", [], 0⟩, .errorReply msg)
    | .followUp _ _ => none
    | .final d c desc prec sev m ps =>
      some (⟨"idle", [], 0⟩, .resultReply (.final d c desc prec sev m ps))

/- ---------------------------------------------------------------------------
Concrete engines used by witnesses and counterexamples.
--------------------------------------------------------------------------- -/

/-- A one-symptom, one-class engine whose oracle is certain. -/
def engineCertain : Engine :=
  { catalog := ["itching"], clf := fun _ => [1], classes := ["Fungal infection"],
    sevDict := fun _ => none, descs := fun _ => none, precs := fun _ => none,
    trainRows := none }

/-- A one-symptom, one-class engine whose oracle reports probability 9/10. -/
def engineNinety : Engine :=
  { catalog := ["itching"], clf := fun _ => [9/10], classes := ["Fungal infection"],
    sevDict := fun _ => none, descs := fun _ => none, precs := fun _ => none,
    trainRows := none }

/-- A two-symptom, two-class engine with one training row per class. -/
def engineTwo : Engine :=
  { catalog := ["itching", "skin_rash"], clf := fun _ => [1], classes := ["A", "B"],
    sevDict := fun _ => none, descs := fun _ => none, precs := fun _ => none,
    trainRows := some [([1, 0], "A"), ([0, 1], "B")] }

/-- An engine whose single catalog symptom contains an underscore. -/
def engineFever : Engine :=
  { catalog := ["high_fever"], clf := fun _ => [1], classes := ["X"],
    sevDict := fun _ => none, descs := fun _ => none, precs := fun _ => none,
    trainRows := none }

/- ---------------------------------------------------------------------------
Helper lemmas.
--------------------------------------------------------------------------- -/

/-- Replacing spaces by underscores never yields a space. -/
theorem replaceSpace_ne_space (c : Char) : replaceSpace c ≠ ' ' := by
  unfold replaceSpace
  split <;> simp_all

/-- Lower-casing never turns a non-space character into a space. -/
theorem pyLower_ne_space {c : Char} (h : c ≠ ' ') : pyLower c ≠ ' ' := by
  unfold pyLower
  split <;> first | decide | assumption

/-- The band mapping of `calc_severity` is monotone in the severity index. -/
theorem sevRank_bandOf_mono {a b : ℚ} (h : a ≤ b) : sevRank (bandOf a) ≤ sevRank (bandOf b) := by
  unfold bandOf
  split_ifs <;> first | decide | linarith

/-- The severity index is monotone in `days` (severity weights are
non-negative). -/
theorem severityIndex_mono_days (E : Engine) (symptoms : List String) {d1 d2 : ℤ} (h : d1 ≤ d2) :
    severityIndex E symptoms d1 ≤ severityIndex E symptoms d2 := by
  unfold severityIndex
  have hm : ((max 1 d1 : ℤ) : ℚ) ≤ ((max 1 d2 : ℤ) : ℚ) := by
    exact_mod_cast max_le_max le_rfl h
  have hs : (0 : ℚ) ≤ (severityScore E symptoms : ℚ) := by positivity
  have hd : (0 : ℚ) < (symptoms.length : ℚ) + 1 := by positivity
  exact (div_le_div_iff_of_pos_right hd).mpr (mul_le_mul_of_nonneg_left hm hs)

/-- The severity index is monotone in the summed weight score. -/
theorem severityIndex_mono_score {E E' : Engine} (symptoms : List String) (days : ℤ)
    (hsc : severityScore E symptoms ≤ severityScore E' symptoms) :
    severityIndex E symptoms days ≤ severityIndex E' symptoms days := by
  unfold severityIndex
  have hm : (0 : ℚ) ≤ ((max 1 days : ℤ) : ℚ) := by
    have h0 : (0 : ℤ) ≤ max 1 days := le_trans (by norm_num) (le_max_left 1 days)
    exact_mod_cast h0
  have hd : (0 : ℚ) < (symptoms.length : ℚ) + 1 := by positivity
  have hcast : (severityScore E symptoms : ℚ) ≤ (severityScore E' symptoms : ℚ) := by
    exact_mod_cast hsc
  exact (div_le_div_iff_of_pos_right hd).mpr (mul_le_mul_of_nonneg_right hcast hm)

/-- The `symptoms_dict` lookup misses exactly the strings outside the
catalog. -/
theorem dictIdxAux_eq_none_iff (s : String) (l : List String) (i : ℕ) :
    dictIdxAux s l i = none ↔ s ∉ l := by
  induction l generalizing i with
  | nil => simp [dictIdxAux]
  | cons k ks ih =>
    simp only [dictIdxAux, List.mem_cons]
    cases h : dictIdxAux s ks (i + 1) with
    | some j =>
      have hks : s ∈ ks := by
        by_contra hm
        exact absurd ((ih (i + 1)).mpr hm) (by simp [h])
      simp [hks]
    | none =>
      have hks : s ∉ ks := (ih (i + 1)).mp h
      by_cases hk : k = s
      · simp [hk]
      · simp [hk, hks, Ne.symm hk]

/-- `key in symptoms_dict` is catalog membership. -/
theorem dictIdx_isSome_iff (catalog : List String) (s : String) :
    (dictIdx catalog s).isSome = true ↔ s ∈ catalog := by
  unfold dictIdx
  rw [Option.isSome_iff_ne_none]
  constructor
  · intro h
    by_contra hm
    exact h ((dictIdxAux_eq_none_iff s catalog 0).mpr hm)
  · intro h hn
    exact absurd h ((dictIdxAux_eq_none_iff s catalog 0).mp hn)

/-- Tokens outside the catalog contribute nothing to the presence vector. -/
theorem inputVector_filter_catalog (E : Engine) (symptoms : List String) :
    inputVector E (symptoms.filter (fun s => E.catalog.contains (normalize_symptom s))) =
      inputVector E symptoms := by
  unfold inputVector
  generalize List.replicate E.catalog.length 0 = v0
  induction symptoms generalizing v0 with
  | nil => rfl
  | cons s S ih =>
    by_cases hp : E.catalog.contains (normalize_symptom s)
    · simp only [List.filter_cons, hp, if_true, List.foldl_cons]
      exact ih _
    · simp only [Bool.not_eq_true] at hp
      simp only [List.filter_cons, hp, if_false, Bool.false_eq_true]
      have hnone : dictIdx E.catalog (normalize_symptom s) = none := by
        rw [← Option.not_isSome_iff_eq_none]
        intro hs
        have hc : E.catalog.contains (normalize_symptom s) = true :=
          List.elem_iff.mpr ((dictIdx_isSome_iff _ _).mp hs)
        rw [hp] at hc
        exact absurd hc (by decide)
      simp only [List.foldl_cons, hnone]
      exact ih _

/-- `roundHalfEven` never rounds above an integer upper bound of its input. -/
theorem roundHalfEven_le {q : ℚ} {n : ℤ} (h : q ≤ (n : ℚ)) : roundHalfEven q ≤ n := by
  unfold roundHalfEven
  dsimp only
  have hf : ⌊q⌋ ≤ n := by
    have hff := Int.floor_le_floor h
    rwa [Int.floor_intCast] at hff
  have hsucc : ¬ (q - ⌊q⌋ < 1/2) → ⌊q⌋ + 1 ≤ n := by
    intro h1
    push_neg at h1
    have hfl : (⌊q⌋ : ℚ) + 1/2 ≤ q := by linarith
    have hlt : (⌊q⌋ : ℚ) < (n : ℚ) := by linarith
    have hzlt : ⌊q⌋ < n := by exact_mod_cast hlt
    omega
  split_ifs with h1 h2 h3
  · exact hf
  · exact hsucc h1
  · exact hf
  · exact hsucc h1

/-- Confidences rounded from probabilities at most 1 stay at most 100. -/
theorem round2_le_100 {q : ℚ} (h : q ≤ 100) : round2 q ≤ 100 := by
  unfold round2
  have h1 : q * 100 ≤ ((10000 : ℤ) : ℚ) := by push_cast; linarith
  have h2 : roundHalfEven (q * 100) ≤ 10000 := roundHalfEven_le h1
  rw [div_le_iff₀ (by norm_num : (0 : ℚ) < 100)]
  have h3 : ((roundHalfEven (q * 100) : ℤ) : ℚ) ≤ ((10000 : ℤ) : ℚ) := by exact_mod_cast h2
  push_cast at h3 ⊢
  linarith

/-- A defaulted list lookup returns an element or the default. -/
theorem getD_mem_or_eq (l : List ℚ) (i : ℕ) (d : ℚ) : l.getD i d ∈ l ∨ l.getD i d = d := by
  have hg : l.getD i d = (l.get? i).getD d := rfl
  cases h : l.get? i with
  | none =>
    right
    rw [hg, h]
    rfl
  | some x =>
    left
    rw [hg, h]
    exact List.get?_mem h

/- ---------------------------------------------------------------------------
Claim theorems.
--------------------------------------------------------------------------- -/

/-- C1 (counterexample): the claimed confidence cap for sparse inputs does not
exist in the code.  With one matched symptom (fewer than 3) and a certain
oracle, `predict_disease` reports top confidence 100, above 85 and hence above
every ceiling in the documented 70–85 range. -/
theorem predict_disease_uncapped_sparse :
    (["itching"] : List String).length < 3 ∧
    predict_disease engineCertain ["itching"] 2 =
      .final "Fungal infection" 100 "No description available." ["No precautions found."]
        "low" ["itching"] [("Fungal infection", 100)] ∧
    (85 : ℚ) < 100 := by decide

/-- C1 (amended): `sec_predict` applies no dampening for inputs with fewer
than 3 matched symptoms; for a well-formed oracle (probabilities at most 1)
the reported confidences are bounded only by the trivial ceiling 100,
regardless of how many symptoms matched. -/
theorem sec_predict_confidence_le_100 (E : Engine) (symptoms : List String)
    (hp : ∀ p ∈ E.clf (inputVector E symptoms), p ≤ 1) :
    ∀ d c, (d, c) ∈ sec_predict E symptoms → c ≤ 100 := by
  intro d c hm
  unfold sec_predict at hm
  simp only [List.mem_map] at hm
  obtain ⟨i, _, heq⟩ := hm
  have hc : c = round2 (100 * (E.clf (inputVector E symptoms)).getD i 0) :=
    ((Prod.mk.injEq _ _ _ _).mp heq).2.symm
  have hpi : (E.clf (inputVector E symptoms)).getD i 0 ≤ 1 := by
    rcases getD_mem_or_eq (E.clf (inputVector E symptoms)) i 0 with hmem | hd
    · exact hp _ hmem
    · rw [hd]
      norm_num
  rw [hc]
  exact round2_le_100 (by linarith)

/-- C1 (witness): the bound theorem applied to the certain one-symptom
engine. -/
theorem sec_predict_confidence_le_100_witness : (100 : ℚ) ≤ 100 :=
  sec_predict_confidence_le_100 engineCertain ["itching"] (by decide) "Fungal infection" 100
    (by decide)

/-- C2 (counterexample): a failed turn does not leave the phase unchanged.
From phase `"symptom_check"`, a batch with zero catalog matches produces the
no-valid-symptoms error and resets the phase to `"idle"`. -/
theorem finish_symptom_check_error_changes_phase :
    finish_symptom_check engineCertain ⟨"symptom_check", ["xyznotasymptom"], 0⟩ =
      some (⟨"idle", [], 0⟩, .errorReply "No valid symptoms found in our symptom list.") ∧
    ("idle" : String) ≠ "symptom_check" := by decide

/-- C2 (amended): every failed turn — an empty batch or a predictor error —
resets the session's phase to `"idle"` (clearing the selected symptoms and the
page on the no-valid-symptoms error) rather than leaving it unchanged. -/
theorem finish_symptom_check_failed_turn_idle (E : Engine) (sess : BotSession)
    (h : sess.selected_symptoms = [] ∨
      (predict_disease E sess.selected_symptoms 2).isError = true) :
    (finish_symptom_check E sess).map (fun p => p.fst.state) = some "idle" := by
  unfold finish_symptom_check
  by_cases he : sess.selected_symptoms.isEmpty
  · rw [if_pos he]
    rfl
  · rw [if_neg he]
    rcases h with h | h
    · exact absurd (by rw [h]; rfl) he
    · cases hp : predict_disease E sess.selected_symptoms 2 with
      | error msg => rfl
      | followUp fs ps =>
        rw [hp] at h
        exact absurd h (by simp [PredictResult.isError])
      | final d c desc prec sev m ps =>
        rw [hp] at h
        exact absurd h (by simp [PredictResult.isError])

/-- C2 (witness): the empty-batch failed turn ends in phase `"idle"`. -/
theorem finish_symptom_check_failed_turn_idle_witness :
    (finish_symptom_check engineCertain ⟨"symptom_check", [], 0⟩).map (fun p => p.fst.state) =
      some "idle" :=
  finish_symptom_check_failed_turn_idle engineCertain ⟨"symptom_check", [], 0⟩ (Or.inl rfl)

/-- C3 (counterexample): with no training data, `dynamic_followups` returns
the fixed list without skipping matched symptoms, so the result can contain a
symptom of the matched set, contradicting the claimed non-overlap. -/
theorem dynamic_followups_overlaps_matched :
    dynamic_followups engineCertain ["nausea"] [("A", 50)] =
      ["nausea", "vomiting", "blurred_vision"] ∧
    "nausea" ∈ dynamic_followups engineCertain ["nausea"] [("A", 50)] ∧
    "nausea" ∈ (["nausea"] : List String).map normalize_symptom := by decide

/-- C3 (amended): `dynamic_followups` consults no asked set and does not pad a
short positive-score result; it always returns at most `FOLLOWUP_COUNT`
symptoms, and when non-empty training data is present the result avoids every
matched symptom (the fixed fallback list is used only when no unmatched
symptom scores positively, and the no-training-data list is returned
unfiltered). -/
theorem dynamic_followups_len_le_and_disjoint (E : Engine) (matched : List String)
    (cands : List (String × ℚ)) :
    (dynamic_followups E matched cands).length ≤ FOLLOWUP_COUNT ∧
    (∀ rows, E.trainRows = some rows → rows ≠ [] →
      ∀ s ∈ dynamic_followups E matched cands, s ∉ matched.map normalize_symptom) := by
  unfold dynamic_followups
  dsimp only
  cases htr : E.trainRows with
  | none =>
    dsimp only
    refine ⟨by decide, ?_⟩
    intro rows hrows
    exact absurd hrows (by simp)
  | some rows0 =>
    dsimp only
    by_cases hre : rows0.isEmpty
    · rw [if_pos hre]
      refine ⟨by decide, ?_⟩
      intro rows hrows hne
      rw [Option.some.injEq] at hrows
      rw [hrows] at hre
      exact absurd (List.isEmpty_iff.mp hre) hne
    · rw [if_neg hre]
      constructor
      · split
        · exact List.length_take_le _ _
        · exact List.length_take_le _ _
      · intro rows hrows hne s hs hmem
        have hcontains : (matched.map normalize_symptom).contains s = true :=
          List.elem_iff.mpr hmem
        revert hs
        split
        · intro hs
          have hf := List.take_subset _ _ hs
          have hp2 := (List.mem_filter.mp hf).2
          simp only [Bool.not_eq_true'] at hp2
          rw [hcontains] at hp2
          exact absurd hp2 (by decide)
        · intro hs
          have hf := List.take_subset _ _ hs
          simp only [List.mem_map] at hf
          obtain ⟨p, hpf, rfl⟩ := hf
          have hp2 := (List.mem_filter.mp hpf).2
          rw [Bool.and_eq_true] at hp2
          have hcf := hp2.1
          simp only [Bool.not_eq_true'] at hcf
          rw [hcontains] at hcf
          exact absurd hcf (by decide)

/-- C3 (witness): the bound and disjointness applied to a two-symptom engine
with training rows. -/
theorem dynamic_followups_len_le_and_disjoint_witness :
    (dynamic_followups engineTwo ["vomiting"] [("A", 50), ("B", 40)]).length ≤ FOLLOWUP_COUNT ∧
    "itching" ∉ (["vomiting"] : List String).map normalize_symptom :=
  ⟨(dynamic_followups_len_le_and_disjoint engineTwo ["vomiting"] [("A", 50), ("B", 40)]).1,
   (dynamic_followups_len_le_and_disjoint engineTwo ["vomiting"] [("A", 50), ("B", 40)]).2
     [([1, 0], "A"), ([0, 1], "B")] rfl (by decide) "itching" (by decide)⟩

/-- C4: for every input with at least one direct catalog match (and an oracle
producing at least one probability), `predict_disease` returns the full final
record exactly when the top reported confidence reaches
`CONFIDENCE_THRESHOLD = 70`, and a follow-up request exactly when it does not:
a pure threshold test on the top confidence. -/
theorem predict_disease_finalize_iff_threshold (E : Engine) (S : List String) (days : ℤ)
    (hm : matchedDirect E S ≠ []) (hp : E.clf (inputVector E (matchedOf E S)) ≠ []) :
    ((predict_disease E S days).isFinal = true ↔ CONFIDENCE_THRESHOLD ≤ topConf E S) ∧
    ((predict_disease E S days).isFollowUp = true ↔ topConf E S < CONFIDENCE_THRESHOLD) := by
  have hS : ¬ S.length = 0 := by
    intro h
    rw [List.length_eq_zero] at h
    subst h
    exact hm rfl
  have hmd : (matchedDirect E S).isEmpty = false := by
    cases hmd : (matchedDirect E S).isEmpty
    · rfl
    · exact absurd (List.isEmpty_iff.mp hmd) hm
  have hmo : (matchedOf E S).isEmpty = false := by
    unfold matchedOf
    dsimp only
    rw [hmd]
    simp only [Bool.false_eq_true, if_false]
    exact hmd
  have ht : topConf E S = ((sec_predict E (matchedOf E S)).headD ("", 0)).snd := rfl
  unfold predict_disease
  rw [if_neg hS]
  dsimp only
  rw [hmo]
  simp only [Bool.false_eq_true, if_false]
  rw [← ht]
  split_ifs with hlt
  · constructor
    · constructor
      · intro h
        exact absurd h (by simp [PredictResult.isFinal])
      · intro h
        exact absurd hlt (not_lt.mpr h)
    · constructor
      · intro _
        exact hlt
      · intro _
        rfl
  · constructor
    · constructor
      · intro _
        exact not_lt.mp hlt
      · intro _
        rfl
    · constructor
      · intro h
        exact absurd h (by simp [PredictResult.isFollowUp])
      · intro h
        exact absurd h hlt

/-- C4 (witness): the threshold characterization applied to the certain
one-symptom engine. -/
theorem predict_disease_finalize_iff_threshold_witness :
    ((predict_disease engineCertain ["itching"] 2).isFinal = true ↔
      CONFIDENCE_THRESHOLD ≤ topConf engineCertain ["itching"]) ∧
    ((predict_disease engineCertain ["itching"] 2).isFollowUp = true ↔
      topConf engineCertain ["itching"] < CONFIDENCE_THRESHOLD) :=
  predict_disease_finalize_iff_threshold engineCertain ["itching"] 2 (by decide) (by decide)

/-- C5 (code bug): on a batch with one catalog match and one unmatched token,
`predict_disease` proceeds with the matched subset but its output nowhere
mentions the dropped token — no field of the result reports the unmatched
inputs, which the specification calls a defect. -/
theorem predict_disease_silently_drops_unmatched :
    predict_disease engineNinety ["itching", "zzz"] 2 =
      .final "Fungal infection" 90 "No description available." ["No precautions found."]
        "low" ["itching"] [("Fungal infection", 90)] ∧
    "zzz" ∉ resultStrings (predict_disease engineNinety ["itching", "zzz"] 2) := by decide

/-- C6: `calc_severity` maps the severity index
`score * max(1, days) / (len(symptoms) + 1)` to the four bands with cut points
5, 10 and 15: low below 5, moderate in [5, 10), high in [10, 15), critical at
15 and above. -/
theorem calc_severity_band_characterization (E : Engine) (symptoms : List String) (days : ℤ) :
    (calc_severity E symptoms days = "low" ↔ severityIndex E symptoms days < 5) ∧
    (calc_severity E symptoms days = "moderate" ↔
      5 ≤ severityIndex E symptoms days ∧ severityIndex E symptoms days < 10) ∧
    (calc_severity E symptoms days = "high" ↔
      10 ≤ severityIndex E symptoms days ∧ severityIndex E symptoms days < 15) ∧
    (calc_severity E symptoms days = "critical" ↔ 15 ≤ severityIndex E symptoms days) := by
  unfold calc_severity bandOf
  set q := severityIndex E symptoms days with hq
  split_ifs with h1 h2 h3
  · exact ⟨iff_of_true rfl h1,
      iff_of_false (by decide) (fun hh => by linarith [hh.1]),
      iff_of_false (by decide) (fun hh => by linarith [hh.1]),
      iff_of_false (by decide) (fun hh => by linarith)⟩
  · exact ⟨iff_of_false (by decide) h1,
      iff_of_true rfl ⟨not_lt.mp h1, h2⟩,
      iff_of_false (by decide) (fun hh => by linarith [hh.1]),
      iff_of_false (by decide) (fun hh => by linarith)⟩
  · exact ⟨iff_of_false (by decide) h1,
      iff_of_false (by decide) (fun hh => absurd hh.2 h2),
      iff_of_true rfl ⟨not_lt.mp h2, h3⟩,
      iff_of_false (by decide) (fun hh => by linarith)⟩
  · exact ⟨iff_of_false (by decide) h1,
      iff_of_false (by decide) (fun hh => absurd hh.2 h2),
      iff_of_false (by decide) (fun hh => absurd hh.2 h3),
      iff_of_true rfl (not_lt.mp h3)⟩

/-- C7: `calc_severity` is total — it always returns one of the four bands —
and monotone: with fixed symptoms, increasing `days` never decreases the band,
and with fixed symptoms and days, any increase of the summed weight score
(whatever change of the weight table produced it) never decreases the band. -/
theorem calc_severity_total_and_monotone (E : Engine) (symptoms : List String) (days : ℤ) :
    calc_severity E symptoms days ∈ (["low", "moderate", "high", "critical"] : List String) ∧
    (∀ days' : ℤ, days ≤ days' →
      sevRank (calc_severity E symptoms days) ≤ sevRank (calc_severity E symptoms days')) ∧
    (∀ E' : Engine, severityScore E symptoms ≤ severityScore E' symptoms →
      sevRank (calc_severity E symptoms days) ≤ sevRank (calc_severity E' symptoms days)) := by
  refine ⟨?_, ?_, ?_⟩
  · unfold calc_severity bandOf
    split_ifs <;> decide
  · intro days' hdd
    exact sevRank_bandOf_mono (severityIndex_mono_days E symptoms hdd)
  · intro E' hsc
    exact sevRank_bandOf_mono (severityIndex_mono_score symptoms days hsc)

/-- C7 (witness): totality and both monotonicities applied at concrete
inputs. -/
theorem calc_severity_total_and_monotone_witness :
    calc_severity engineCertain ["itching"] 2 ∈
      (["low", "moderate", "high", "critical"] : List String) ∧
    sevRank (calc_severity engineCertain ["itching"] 2) ≤
      sevRank (calc_severity engineCertain ["itching"] 5) ∧
    sevRank (calc_severity engineCertain ["itching"] 2) ≤
      sevRank (calc_severity engineNinety ["itching"] 2) :=
  ⟨(calc_severity_total_and_monotone engineCertain ["itching"] 2).1,
   (calc_severity_total_and_monotone engineCertain ["itching"] 2).2.1 5 (by decide),
   (calc_severity_total_and_monotone engineCertain ["itching"] 2).2.2 engineNinety
     (by decide)⟩

/-- C8 (counterexample): `normalize_symptom` does not strip characters outside
`[a-z_]` — the exclamation mark survives normalization, so the result is not
confined to that character class. -/
theorem normalize_symptom_keeps_nonalpha :
    normalize_symptom "Fever!" = "fever!" ∧
    ((normalize_symptom "Fever!").data.all isCatalogChar) = false := by decide

/-- C8 (amended): `normalize_symptom` trims outer whitespace, replaces each
space by an underscore (without collapsing runs) and lower-cases; it never
produces a space, and it drops no character after the trim — in particular
characters outside `[a-z_]` are preserved, not stripped. -/
theorem normalize_symptom_no_space_no_drop (s : String) :
    (∀ c ∈ (normalize_symptom s).data, c ≠ ' ') ∧
    (normalize_symptom s).data.length = (pyStrip s.data).length := by
  constructor
  · intro c hc
    unfold normalize_symptom at hc
    simp only [String.data] at hc
    simp only [List.mem_map] at hc
    obtain ⟨c1, ⟨c0, _, rfl⟩, rfl⟩ := hc
    exact pyLower_ne_space (replaceSpace_ne_space c0)
  · simp [normalize_symptom]

/-- C8 (witness): the amended normalization facts at a concrete input. -/
theorem normalize_symptom_no_space_no_drop_witness :
    'f' ≠ ' ' ∧ (normalize_symptom "Fever").data.length = (pyStrip "Fever".data).length :=
  ⟨(normalize_symptom_no_space_no_drop "Fever").1 'f' (by decide),
   (normalize_symptom_no_space_no_drop "Fever").2⟩

/-- C9: `sec_predict` is invariant under non-catalog tokens — filtering the
input down to the tokens whose normalized form is a catalog member leaves the
presence vector, and hence the entire ranked, confidence-scored output,
unchanged. -/
theorem sec_predict_ignores_noncatalog (E : Engine) (symptoms : List String) :
    sec_predict E symptoms =
      sec_predict E (symptoms.filter (fun s => E.catalog.contains (normalize_symptom s))) := by
  unfold sec_predict
  rw [inputVector_filter_catalog]

/-- C10: when no token of a non-empty batch is a direct catalog member,
`predict_disease` falls back to underscore-insensitive exact matching — a
normalized token is accepted exactly when some catalog symptom equals it after
removing all underscores from both — and returns the no-valid-symptoms error
exactly when no token passes this fallback either. -/
theorem predict_disease_underscore_fallback (E : Engine) (S : List String) (days : ℤ)
    (hS : S ≠ []) (hd : matchedDirect E S = []) :
    (∀ s ∈ normalizedOf S,
      (E.catalog.find? (fun k => stripUnderscores k = stripUnderscores s)).isSome = true ↔
        ∃ k, k ∈ E.catalog ∧ stripUnderscores k = stripUnderscores s) ∧
    ((predict_disease E S days = .error "No valid symptoms found in our symptom list.") ↔
      ∀ s ∈ normalizedOf S, ¬ ∃ k, k ∈ E.catalog ∧ stripUnderscores k = stripUnderscores s) := by
  have hfind : ∀ s : String,
      (E.catalog.find? (fun k => stripUnderscores k = stripUnderscores s)).isSome = true ↔
        ∃ k, k ∈ E.catalog ∧ stripUnderscores k = stripUnderscores s := by
    intro s
    rw [List.find?_isSome]
    constructor
    · rintro ⟨k, hk, hpk⟩
      exact ⟨k, hk, of_decide_eq_true hpk⟩
    · rintro ⟨k, hk, hpk⟩
      exact ⟨k, hk, decide_eq_true hpk⟩
  have hlen : ¬ S.length = 0 := by
    intro h
    exact hS (List.length_eq_zero.mp h)
  have hmo : matchedOf E S = fallbackMatched E S := by
    unfold matchedOf
    dsimp only
    rw [hd]
    rfl
  constructor
  · intro s _
    exact hfind s
  · unfold predict_disease
    rw [if_neg hlen]
    dsimp only
    rw [hmo]
    constructor
    · intro h s hs
      by_cases hemp : (fallbackMatched E S).isEmpty
      · intro hex
        have hsome := (hfind s).mpr hex
        have hnone : (E.catalog.find? (fun k => stripUnderscores k = stripUnderscores s)) = none := by
          have hnil := List.filterMap_eq_nil_iff.mp (List.isEmpty_iff.mp hemp)
          exact hnil s hs
        rw [hnone] at hsome
        exact absurd hsome (by decide)
      · rw [if_neg (by simp [hemp])] at h
        revert h
        split <;> intro h <;> exact absurd h (by simp)
    · intro hall
      have hemp : fallbackMatched E S = [] := by
        unfold fallbackMatched
        rw [List.filterMap_eq_nil_iff]
        intro s hs
        cases hfq : E.catalog.find? (fun k => stripUnderscores k = stripUnderscores s) with
        | none => rfl
        | some k =>
          have hsome : (E.catalog.find? (fun k => stripUnderscores k = stripUnderscores s)).isSome = true := by
            rw [hfq]
            rfl
          exact absurd ((hfind s).mp hsome) (hall s hs)
      rw [if_pos (by simp [hemp])]

/-- C10 (witness): `"highfever"` matches the catalog symptom `"high_fever"`
through the underscore-insensitive fallback, so the error is not returned. -/
theorem predict_disease_underscore_fallback_witness :
    predict_disease engineFever ["highfever"] 2 ≠
      PredictResult.error "No valid symptoms found in our symptom list." :=
  fun h =>
    ((predict_disease_underscore_fallback engineFever ["highfever"] 2 (by decide) (by decide)).2.mp h
        "highfever" (by decide))
      ⟨"high_fever", by decide, by decide⟩
